import Mathlib

/-!
Verification of the wbhi-redcap-gear identity-reconciliation engine.

Shallow embedding of the matching, identifier-generation, retry-scheduling,
tagging and duplicate-rename operations of `src/run.py` and
`src/utils/utils.py`.  Python dictionaries become association lists,
datetimes become an explicit Gregorian calendar model at one-second
resolution, and fallible code (KeyError / ValueError raising paths, the
unbounded random-retry loop) returns `Option` Except-style values.
-/

namespace Wbhi

/-! ## String helpers -/

/-- Numeric value of a list of decimal digit characters (most significant
first), as produced by `int()` / `pd.to_numeric` on an all-digit string. -/
def digitsVal (cs : List Char) : Nat :=
  cs.foldl (fun n c => n * 10 + (c.toNat - 48)) 0

/-- Model of Python `str.zfill`: left-pad with zeros to width `k`. -/
def zfill (k : Nat) (s : String) : String :=
  if s.length ≥ k then s else String.mk (List.replicate (k - s.length) '0') ++ s

/-- Model of Python `str.startswith(p)`. -/
def hasPfx (p t : String) : Bool :=
  t.toList.take p.toList.length == p.toList

/-- Lexicographic (code-point) strict comparison of character lists, the
order Python uses on strings. -/
def strLtB : List Char → List Char → Bool
  | [], [] => false
  | [], _ :: _ => true
  | _ :: _, [] => false
  | a :: as, b :: bs =>
    if a.toNat < b.toNat then true
    else if b.toNat < a.toNat then false
    else strLtB as bs

/-- The larger of two strings in the Python string order. -/
def strMax (a b : String) : String :=
  if strLtB a.toList b.toList then b else a

/-- Model of `sorted(l)[-1]` on a nonempty list of strings: Python `sorted`
is an ascending stable sort, so its last element is the lexicographic
maximum.  Returns `""` (the minimum string) on the empty list. -/
def sorted_last (l : List String) : String :=
  l.foldl strMax ""

/-- Model of Python `str.casefold()`: ASCII lower-casing (the identifiers
this program compares are ASCII). -/
def pyCasefold (s : String) : String :=
  String.mk (s.toList.map Char.toLower)

/-- Model of Python `s.split(sep)` for a one-character separator (the only
separator this program uses is an underscore). -/
def pySplit (sep : Char) (s : String) : List String :=
  (s.toList.splitOn sep).map String.mk

/-- Model of Python `int(s)` on a decimal string, `none` for the
`ValueError` raise (signs, spaces and other `int()` extras are not needed:
every string this program parses was produced by `str(n)`). -/
def parseNatStr (s : String) : Option Nat :=
  if s.toList ≠ [] ∧ s.toList.all Char.isDigit then some (digitsVal s.toList) else none

/-- Model of `container.add_tag(t)`: Flywheel containers hold a tag at most
once, so adding appends only when absent. -/
def add_tag (tags : List String) (t : String) : List String :=
  if t ∈ tags then tags else tags ++ [t]

/-- Model of `container.delete_tag(t)`: removes the tag `t`. -/
def delete_tag (tags : List String) (t : String) : List String :=
  tags.filter (fun u => u ≠ t)

/-! ## Calendar model

Python `datetime.date` values become explicit Gregorian `year/month/day`
triples; `datetime.datetime` adds a seconds-of-day component.  `timedelta`
addition of whole days is day-by-day successor iteration, and datetime
comparison and subtraction go through the day ordinal (the standard
proleptic-Gregorian day count used by `datetime.toordinal`). -/

structure Date where
  year : Nat
  month : Nat
  day : Nat
deriving DecidableEq, Repr

def isLeap (y : Nat) : Bool :=
  (y % 4 == 0 && y % 100 != 0) || y % 400 == 0

def monthLen (y m : Nat) : Nat :=
  if m = 2 then (if isLeap y then 29 else 28)
  else if m = 4 ∨ m = 6 ∨ m = 9 ∨ m = 11 then 30
  else 31

def nextDay (d : Date) : Date :=
  if d.day < monthLen d.year d.month then ⟨d.year, d.month, d.day + 1⟩
  else if d.month < 12 then ⟨d.year, d.month + 1, 1⟩
  else ⟨d.year + 1, 1, 1⟩

/-- `d + timedelta(days=n)` for calendar dates. -/
def addDays (d : Date) : Nat → Date
  | 0 => d
  | n + 1 => addDays (nextDay d) n

def daysBeforeMonth (y m : Nat) : Nat :=
  (List.range (m - 1)).foldl (fun a i => a + monthLen y (i + 1)) 0

/-- Day ordinal of a date (days since 0001-01-01, that date having
ordinal 1), exactly `datetime.date.toordinal`. -/
def toOrdinal (d : Date) : Nat :=
  365 * (d.year - 1) + ((d.year - 1) / 4 - (d.year - 1) / 100) + (d.year - 1) / 400
    + daysBeforeMonth d.year d.month + d.day

/-- A naive `datetime.datetime` at one-second resolution. -/
structure DateTime where
  date : Date
  sod : Nat
deriving DecidableEq, Repr

/-- Seconds since the ordinal epoch; datetime comparison and subtraction
are carried out on this linearisation. -/
def dtSecs (t : DateTime) : Nat :=
  toOrdinal t.date * 86400 + t.sod

/-- `strftime("%Y%m%d")`. -/
def fmtDateFW (d : Date) : String :=
  zfill 4 (toString d.year) ++ zfill 2 (toString d.month) ++ zfill 2 (toString d.day)

/-- `datetime.strptime(s, "%Y%m%d")`, `none` for the `ValueError` raise. -/
def parseDateFW (s : String) : Option Date :=
  let cs := s.toList
  if cs.length = 8 ∧ cs.all Char.isDigit then
    let y := digitsVal (cs.take 4)
    let m := digitsVal ((cs.drop 4).take 2)
    let d := digitsVal (cs.drop 6)
    if 1 ≤ y ∧ 1 ≤ m ∧ m ≤ 12 ∧ 1 ≤ d ∧ d ≤ monthLen y m then some ⟨y, m, d⟩ else none
  else none

/-- `datetime.strptime(s, "%Y-%m-%d")`, `none` for the `ValueError` raise. -/
def parseDateRC (s : String) : Option Date :=
  let cs := s.toList
  if cs.length = 10 ∧ cs.getD 4 ' ' = '-' ∧ cs.getD 7 ' ' = '-'
      ∧ (cs.take 4).all Char.isDigit ∧ ((cs.drop 5).take 2).all Char.isDigit
      ∧ (cs.drop 8).all Char.isDigit then
    let y := digitsVal (cs.take 4)
    let m := digitsVal ((cs.drop 5).take 2)
    let d := digitsVal (cs.drop 8)
    if 1 ≤ y ∧ 1 ≤ m ∧ m ≤ 12 ∧ 1 ≤ d ∧ d ≤ monthLen y m then some ⟨y, m, d⟩ else none
  else none

/-- Integer part of `float(s)` for a plain decimal literal `ddd[.ddd]`,
`none` for the `ValueError` raise.  The program only compares the value
against `120000`, and for DICOM time strings (value in `[0, 240000)`,
fraction in `[0,1)`) that comparison is decided by the integer part. -/
def parseFloatNat (s : String) : Option Nat :=
  match pySplit '.' s with
  | [a] => if a.toList ≠ [] ∧ a.toList.all Char.isDigit then some (digitsVal a.toList) else none
  | [a, b] =>
    if (a.toList ≠ [] ∨ b.toList ≠ []) ∧ a.toList.all Char.isDigit ∧ b.toList.all Char.isDigit
    then some (digitsVal a.toList) else none
  | _ => none

/-- Modelled from the spec: `wbhiutils.constants.DATETIME_FORMAT_FW` and the
series date-time parse are not under `src/`; the spec only requires a series
timestamp parsed from the `SeriesDate`/`SeriesTime` pair, failing on
malformed values.  Date part `%Y%m%d`, time part `HHMMSS[.frac]`. -/
def parseSeriesDT (ds ts : String) : Option DateTime := do
  let d ← parseDateFW ds
  let t ← parseFloatNat ts
  if t / 10000 < 24 ∧ t / 100 % 100 < 60 ∧ t % 100 < 60 then
    pure ⟨d, (t / 10000) * 3600 + (t / 100 % 100) * 60 + t % 100⟩
  else none

/-! ## Site configuration (run.py lines 25-39) -/

/-- `SITE_KEY` of run.py: site to one-letter WBHI-ID prefix. -/
def SITE_KEY : List (String × String) :=
  [("ucsb", "A"), ("ucb", "B"), ("ucsf", "C"), ("uci", "D"), ("ucd", "E"), ("stanford", "F")]

/-- `SITE_LIST` of run.py: the configured sites. -/
def SITE_LIST : List String := ["ucsb", "uci", "ucb", "ucsf"]

/-- Modelled from the spec: `wbhiutils.constants.REDCAP_KEY["am_pm"]` is not
under `src/`; the spec describes it as the fixed lookup mapping the REDCap
AM/PM code of a record to the am/pm flag computed from the header (code "1"
is before noon).  A key outside the table raises `KeyError` in Python; here
the lookup is an `Option` and the theorems restrict to well-formed codes. -/
def REDCAP_KEY_am_pm : List (String × String) := [("1", "am"), ("2", "pm")]

/-! ## Data model -/

/-- A consent-registry record (the REDCap row fields this engine reads).
`mri_pi` and `mri_pi_other` model the site-indexed dictionary keys
`record["mri_pi_" + site]` and `record["mri_pi_" + site + "_other"]`. -/
structure Record where
  icf_consent : String
  consent_complete : String
  site : String
  mri_date : String
  mri_ampm : String
  mri : String
  rid : String
  mri_pi : String → String
  mri_pi_other : String → String

/-- A DICOM header: the `info["header"]["dicom"]` dictionary. -/
def DcmHdr := List (String × String)
deriving DecidableEq

/-- A Flywheel file: type, tags, whether `info` has a `"header"` key, and
the value of `info["header"]["dicom"]` (`none` when that key is absent). -/
structure FwFile where
  ftype : String
  ftags : List String
  hasHdrInfo : Bool
  dcm : Option DcmHdr
deriving DecidableEq

/-- A Flywheel acquisition: its own tags and its files. -/
structure Acq where
  atags : List String
  files : List FwFile
deriving DecidableEq

/-- A Flywheel session: tags, timestamp and acquisitions. -/
structure Session where
  tags : List String
  timestamp : DateTime
  acqs : List Acq
deriving DecidableEq

/-- The header-fields dictionary built by `utils.get_hdr_fields` on success
(`pi_id` and `sub_id` already casefolded there). -/
structure HdrOk where
  site : String
  pi_id : String
  sub_id : String
  date : Date
  am_pm : String
  series : DateTime
deriving DecidableEq

/-- The typed extraction failures of `utils.get_hdr_fields`. -/
inductive HdrErr where
  | NO_DICOMS
  | FILE_CLASSIFIER_NOT_RUN
  | MISSING_DICOM_FIELDS
deriving DecidableEq, Repr

/-- The dictionary returned by `utils.get_hdr_fields`: either an error
marker or the parsed fields. -/
inductive HdrRes where
  | errRes (e : HdrErr)
  | okRes (h : HdrOk)
deriving DecidableEq

/-- One row of the destination-project data view built in
`utils.smarter_copy` (columns subject.label, session.label, session.date). -/
structure DstRow where
  subLabel : String
  sesLabel : String
  sesDate : String
deriving DecidableEq

/-! ## MatchEngine: `utils.find_matches` (utils.py lines 134-154) -/

/-- The outer candidate conjunction of `utils.find_matches` (lines
139-145), in source order.  The two dictionary lookups that can raise
`KeyError` in Python (`strptime` on `mri_date` raises `ValueError`,
`REDCAP_KEY` lookup raises `KeyError`) are `Option` valued here, a failed
lookup rejecting the record; the theorems restrict to registry snapshots on
which Python does not raise. -/
def c_outer (hdr : HdrOk) (r : Record) : Bool :=
  r.icf_consent == "1"
    && r.consent_complete == "2"
    && r.site == hdr.site
    && SITE_LIST.contains r.site
    && parseDateRC r.mri_date == some hdr.date
    && List.lookup r.mri_ampm REDCAP_KEY_am_pm == some hdr.am_pm
    && pyCasefold r.mri == hdr.sub_id

/-- The inner PI condition of `utils.find_matches` (lines 147-150),
including the "99"/other free-text escape.  `pyCasefold` models
`str.casefold`. -/
def c_pi (hdr : HdrOk) (r : Record) : Bool :=
  pyCasefold (r.mri_pi hdr.site) == hdr.pi_id
    || (r.mri_pi hdr.site == "99" && pyCasefold (r.mri_pi_other hdr.site) == hdr.pi_id)

/-- `utils.find_matches`: scan the registry snapshot most-recent-first
(`reversed(redcap_data)`), appending every record that passes the nested
candidate checks; always returns the accumulated list (empty when no record
qualifies). -/
def find_matches (hdr : HdrOk) (redcap_data : List Record) : List Record :=
  redcap_data.reverse.foldl
    (fun acc r =>
      if c_outer hdr r then
        if c_pi hdr r then acc ++ [r] else acc
      else acc)
    []

/-- The flat candidate predicate as the spec states it: the full
conjunction of consent, site, date, AM/PM, subject-token and operator-token
conditions. -/
def is_candidate (hdr : HdrOk) (r : Record) : Bool :=
  c_outer hdr r && c_pi hdr r

/-- Well-formedness of a registry snapshot: every record carries a parseable
MRI date and a known AM/PM code, so the Python scan raises no exception. -/
def recordWF (r : Record) : Prop :=
  (parseDateRC r.mri_date).isSome = true ∧ (r.mri_ampm = "1" ∨ r.mri_ampm = "2")

instance (r : Record) : Decidable (recordWF r) := by
  unfold recordWF; infer_instance

/-! ## IdentityGenerator: `utils.generate_wbhi_id` (utils.py lines 156-177) -/

/-- Model of Python `str.strip()`: drop leading and trailing whitespace. -/
def pyStrip (s : String) : String :=
  String.mk (((s.toList.dropWhile Char.isWhitespace).reverse.dropWhile
    Char.isWhitespace).reverse)

/-- The reuse guard of `utils.generate_wbhi_id` (line 164):
`match["rid"] and match["rid"].strip()` — a non-blank prior identifier. -/
def nonblank_rid (m : Record) : Bool :=
  m.rid ≠ "" && pyStrip m.rid ≠ ""

/-- The `while True` generation loop of `utils.generate_wbhi_id` (lines
169-177).  `rand` is the stream of suffixes drawn by
`random.choices(string.ascii_uppercase + string.digits, k=WBHI_ID_SUFFIX_LENGTH)`;
each candidate is checked for membership in `id_list` and, when absent,
appended to `id_list` and returned together with the updated list and the
unconsumed remainder of the stream.  `none` models exhausting the modelled
stream (the Python loop would keep drawing). -/
def gen_loop (pfx : String) (id_list : List String) :
    List String → Option (String × List String × List String)
  | [] => none
  | s :: rest =>
    let wbhi_id := pfx ++ s
    if wbhi_id ∈ id_list then gen_loop pfx id_list rest
    else some (wbhi_id, id_list ++ [wbhi_id], rest)

/-- `utils.generate_wbhi_id`: reuse the first non-blank `rid` among the
matches (leaving `id_list` and the random stream untouched), otherwise run
the collision-checked generation loop with the site prefix from
`SITE_KEY`. -/
def generate_wbhi_id (ms : List Record) (site : String) (id_list : List String)
    (rand : List String) : Option (String × List String × List String) :=
  match ms.find? nonblank_rid with
  | some m => some (m.rid, id_list, rand)
  | none => gen_loop ((List.lookup site SITE_KEY).getD "") id_list rand

/-- A run of the engine as seen by the identifier generator: the
`generate_wbhi_id` calls of one `main()` invocation in order, threading
`id_list` and the random stream through (run.py lines 255-265 thread
`id_list` through `redcap_match` exactly like this).  For each call the
result records the returned identifier and whether it was freshly
generated (no match carried a non-blank `rid`). -/
def run_generate (site : String) :
    List (List Record) → List String → List String →
      Option (List (String × Bool) × List String)
  | [], id_list, _ => some ([], id_list)
  | ms :: rest, id_list, rand =>
    match generate_wbhi_id ms site id_list rand with
    | none => none
    | some (wbhi_id, id_list', rand') =>
      match run_generate site rest id_list' rand' with
      | none => none
      | some (results, idsF) =>
        some ((wbhi_id, (ms.find? nonblank_rid).isNone) :: results, idsF)

/-- The identifiers a run freshly generated (reused `rid`s excluded). -/
def freshIds (results : List (String × Bool)) : List String :=
  (results.filter (fun p => p.2)).map (fun p => p.1)

/-! ## RetryScheduler: session selection (utils.py lines 43-69) -/

/-- The redcap retry markers of a session. -/
def redcapTags (s : Session) : List String :=
  s.tags.filter (fun t => hasPfx "redcap" t)

/-- The per-session body of the `utils.get_sessions_redcap` loop: skip on a
`skip_redcap` or `need_to_split` tag, skip sessions younger than
`config["ignore_until_n_days_old"]` days (`utcnow() - timestamp <
timedelta(days=cfgDays)`), keep sessions without a redcap tag, otherwise
parse the date off the lexicographically-last redcap tag and keep the
session when that date is on or before `datetime.today()`.  A tag whose
date component does not parse raises `ValueError` in Python; here the
session is dropped and the theorems restrict to well-formed tags. -/
def sessionKept (cfgDays : Nat) (today now : DateTime) (s : Session) : Bool :=
  if "skip_redcap" ∈ s.tags ∨ "need_to_split" ∈ s.tags then false
  else if dtSecs now < dtSecs s.timestamp + cfgDays * 86400 then false
  else
    match redcapTags s with
    | [] => true
    | rts =>
      match parseDateFW ((pySplit '_' (sorted_last rts)).getLastD "") with
      | some tag_date => toOrdinal tag_date * 86400 ≤ dtSecs today
      | none => false

/-- `utils.get_sessions_redcap`: the sessions of the project that the
per-session filter keeps, in order. -/
def get_sessions_redcap (cfgDays : Nat) (today now : DateTime)
    (sessions : List Session) : List Session :=
  sessions.filter (sessionKept cfgDays today now)

/-- Well-formedness of a session for the selection scan: when it carries
redcap tags, the date component of the authoritative one parses. -/
def sessionWF (s : Session) : Bool :=
  match redcapTags s with
  | [] => true
  | rts => (parseDateFW ((pySplit '_' (sorted_last rts)).getLastD "")).isSome

/-! ## RetryScheduler: marker update (utils.py lines 190-205) -/

/-- The new marker string `"redcap_" + str(n + 1) + "_" + new_tag_date_str`
of `utils.tag_session_redcap`. -/
def mkRedcapTag (n : Nat) (d : Date) : String :=
  "redcap_" ++ (toString n ++ ("_" ++ fmtDateFW d))

/-- The attempt count `utils.tag_session_redcap` reads before retagging:
`int(sorted(redcap_tags)[-1].split("_")[1])` when a redcap tag exists,
`0` otherwise; `none` models the `int()` `ValueError`/index raise on a
malformed tag. -/
def oldRedcapN (s : Session) : Option Nat :=
  match redcapTags s with
  | [] => some 0
  | rts => parseNatStr ((pySplit '_' (sorted_last rts)).getD 1 "")

/-- `utils.tag_session_redcap`: read the authoritative attempt count `n`,
delete every redcap tag, and add one new marker with count `n + 1` dated
`datetime.today() + timedelta(days=2**min(5, n))`. -/
def tag_session_redcap (today : Date) (s : Session) : Option Session :=
  match oldRedcapN s with
  | none => none
  | some n =>
    let tags₁ := (redcapTags s).foldl delete_tag s.tags
    some { s with tags := add_tag tags₁ (mkRedcapTag (n + 1) (addDays today (2 ^ min 5 n))) }

/-! ## Completion marking: `utils.tag_session_wbhi` (utils.py lines 179-188)

run.py `tag_session(session, True)` (lines 130-137) performs the same
mutations, so this definition also stands in for it. -/

/-- `utils.tag_session_wbhi`: add `"wbhi"` to the session, delete its redcap
tags, and add `"wbhi"` to every file of every acquisition (the acquisition
containers themselves are not tagged by the code). -/
def tag_session_wbhi (s : Session) : Session :=
  let rts := redcapTags s
  let tags₁ := add_tag s.tags "wbhi"
  { s with
    tags := rts.foldl delete_tag tags₁
    acqs := s.acqs.map (fun a =>
      { a with files := a.files.map (fun f => { f with ftags := add_tag f.ftags "wbhi" }) }) }

/-! ## Registry import and completion tagging (run.py lines 237-248) -/

/-- The import-and-commit tail of `run.redcap_match`: when `new_records` is
nonempty the records are imported and the printed outcome is success
exactly when the returned `count` is positive — and the `tag_session(
session, True)` loop then runs on every matched session regardless of that
outcome.  Returns the reported outcome (`none` when nothing was imported)
and the updated sessions. -/
def redcap_import_commit (new_records : List Record) (count : Nat)
    (wbhi_sessions : List Session) : Option Bool × List Session :=
  if new_records.isEmpty then (none, wbhi_sessions)
  else (some (decide (0 < count)), wbhi_sessions.map tag_session_wbhi)

/-! ## Duplicate-subject rename (utils.py lines 216-229 and 252-267) -/

/-- Whether a destination label matches the pattern
`'^' + subject.label + '_\d{3}$'` of `utils.rename_duplicate_subject`. -/
def isDupOf (lbl s : String) : Bool :=
  hasPfx (lbl ++ "_") s
    && (s.toList.drop (lbl.toList.length + 1)).length == 3
    && (s.toList.drop (lbl.toList.length + 1)).all Char.isDigit

/-- The numeric suffix of a duplicate label: the pandas
`str.replace(f"{subject.label}_", "")` then `to_numeric` pipeline (for a
label matching the anchored pattern this strips the prefix and parses the
three digits). -/
def sufVal (lbl s : String) : Nat :=
  digitsVal (s.toList.drop (lbl.toList.length + 1))

/-- `utils.rename_duplicate_subject` as a function on the subject label and
the destination snapshot's subject.label column: when suffixed duplicates
exist, one plus their maximal numeric suffix, zero-filled to three digits;
otherwise `_001`. -/
def rename_duplicate_subject (lbl : String) (labels : List String) : String :=
  let dups := labels.filter (isDupOf lbl)
  if dups.isEmpty then lbl ++ "_001"
  else lbl ++ "_" ++ zfill 3 (toString ((dups.map (sufVal lbl)).foldl max 0 + 1))

/-- The collision test of the `utils.smarter_copy` loop (lines 257-266):
the subject label already occurs in the destination snapshot and some
destination row of that subject has the same session label but a different
session date. -/
def collides (dst : List DstRow) (subL sesL sesD : String) : Bool :=
  List.contains (dst.map (fun r => r.subLabel)) subL
    && !(dst.filter (fun r =>
          r.subLabel == subL && r.sesLabel == sesL && r.sesDate != sesD)).isEmpty

/-- The subject label after the `utils.smarter_copy` duplicate check: the
subject is renamed through `rename_duplicate_subject` exactly when the
collision test fires, and left unchanged otherwise. -/
def smarter_copy_label (dst : List DstRow) (subL sesL sesD : String) : String :=
  if collides dst subL sesL sesD then
    rename_duplicate_subject subL (dst.map (fun r => r.subLabel))
  else subL

/-! ## Header extraction: `utils.get_hdr_fields` (utils.py lines 83-114) -/

/-- First file of type dicom in the acquisition, `dicom_list[0]`. -/
def firstDicom (acq : Acq) : Option FwFile :=
  (acq.files.filter (fun f => f.ftype == "dicom")).head?

/-- The try-block of `utils.get_hdr_fields` on a classified header, with
the dictionary values evaluated in source order.  A `KeyError` from the
parser callbacks or the header lookups yields the typed
`MISSING_DICOM_FIELDS` result; a malformed present value makes `strptime`
or `float` raise `ValueError`, which the Python `except KeyError` does not
catch — modelled as `Except.error`. -/
def hdr_try (ppi psub : DcmHdr → Option String) (hdr : DcmHdr) (site : String) :
    Except String HdrRes :=
  match ppi hdr with
  | none => .ok (.errRes .MISSING_DICOM_FIELDS)
  | some piRaw =>
    match psub hdr with
    | none => .ok (.errRes .MISSING_DICOM_FIELDS)
    | some subRaw =>
      match List.lookup "StudyDate" hdr with
      | none => .ok (.errRes .MISSING_DICOM_FIELDS)
      | some sd =>
        match parseDateFW sd with
        | none => .error "ValueError: strptime StudyDate"
        | some date =>
          match List.lookup "StudyTime" hdr with
          | none => .ok (.errRes .MISSING_DICOM_FIELDS)
          | some st =>
            match parseFloatNat st with
            | none => .error "ValueError: float StudyTime"
            | some stN =>
              match List.lookup "SeriesDate" hdr, List.lookup "SeriesTime" hdr with
              | none, _ => .ok (.errRes .MISSING_DICOM_FIELDS)
              | some _, none => .ok (.errRes .MISSING_DICOM_FIELDS)
              | some sed, some set =>
                match parseSeriesDT sed set with
                | none => .error "ValueError: strptime SeriesDate SeriesTime"
                | some sdt =>
                  .ok (.okRes
                    { site := site
                      pi_id := pyCasefold piRaw
                      sub_id := pyCasefold subRaw
                      date := date
                      am_pm := if stN < 120000 then "am" else "pm"
                      series := sdt })

/-- `utils.get_hdr_fields`: no dicom file yields the `NO_DICOMS` marker; a
first dicom without the `file-classifier` tag or without header info yields
`FILE_CLASSIFIER_NOT_RUN`; a header-info dictionary without the `"dicom"`
sub-key raises `KeyError` outside the try-block (line 95); otherwise the
try-block runs.  `ppi`/`psub` model the external
`parse_dicom_hdr.parse_pi`/`parse_sub`, `none` for their `KeyError`. -/
def get_hdr_fields (ppi psub : DcmHdr → Option String) (acq : Acq) (site : String) :
    Except String HdrRes :=
  match firstDicom acq with
  | none => .ok (.errRes .NO_DICOMS)
  | some dicom =>
    if "file-classifier" ∉ dicom.ftags ∨ dicom.hasHdrInfo = false then
      .ok (.errRes .FILE_CLASSIFIER_NOT_RUN)
    else
      match dicom.dcm with
      | none => .error "KeyError: header info has no dicom sub-key"
      | some hdr => hdr_try ppi psub hdr site

/-- Well-formedness of the present values of a DICOM header: the dates and
times the try-block parses are parseable when present. -/
def hdrValuesWF (hdr : DcmHdr) : Bool :=
  (match List.lookup "StudyDate" hdr with
   | some v => (parseDateFW v).isSome
   | none => true)
  && (match List.lookup "StudyTime" hdr with
      | some v => (parseFloatNat v).isSome
      | none => true)
  && (match List.lookup "SeriesDate" hdr, List.lookup "SeriesTime" hdr with
      | some u, some v => (parseSeriesDT u v).isSome
      | _, _ => true)

/-- Structural well-formedness of an acquisition for extraction: if the
first dicom file advertises header info, the `"dicom"` sub-key is there,
and its values are well-formed. -/
def acqWF (acq : Acq) : Bool :=
  match firstDicom acq with
  | none => true
  | some f =>
    if f.hasHdrInfo then
      match f.dcm with
      | none => false
      | some hdr => hdrValuesWF hdr
    else true

/-! ## Driver header extraction: `run.get_dicom_fields` (run.py lines 64-88) -/

/-- The date computation of `run.get_dicom_fields` (lines 76-81): the code
builds `hdr_fields = {"site": site}` and then tests
`"AcquisitionDate" in hdr_fields.keys()` — membership in the partially
built output dictionary, not in the DICOM header — before choosing between
the `AcquisitionDate` and `StudyDate[:8]` parses. -/
def get_dicom_fields_date (dcm_hdr : DcmHdr) (site : String) : Option Date :=
  let hdr_fields : List (String × String) := [("site", site)]
  if "AcquisitionDate" ∈ hdr_fields.map Prod.fst then
    (List.lookup "AcquisitionDate" dcm_hdr).bind parseDateFW
  else
    (List.lookup "StudyDate" dcm_hdr).bind (fun s => parseDateFW (s.take 8))

/-! ## Concrete instances used by witnesses and counterexamples -/

/-- A header-fields value as extracted for a ucsb morning session. -/
def hdrW : HdrOk :=
  { site := "ucsb", pi_id := "op1", sub_id := "s1", date := ⟨2024, 3, 1⟩
    am_pm := "am", series := ⟨⟨2024, 3, 1⟩, 34200⟩ }

/-- A consent-complete registry record matching `hdrW`, with a blank `rid`. -/
def recW : Record :=
  { icf_consent := "1", consent_complete := "2", site := "ucsb"
    mri_date := "2024-03-01", mri_ampm := "1", mri := "S1", rid := ""
    mri_pi := fun _ => "OP1", mri_pi_other := fun _ => "" }

/-- The same record carrying a previously assigned identifier. -/
def recRid : Record := { recW with rid := "A123X" }

/-- A session with no tags and no acquisitions. -/
def sPlain : Session := ⟨[], ⟨⟨2024, 1, 1⟩, 0⟩, []⟩

/-- A completion-marked session. -/
def sWbhi : Session := ⟨["wbhi"], ⟨⟨2024, 1, 1⟩, 0⟩, []⟩

/-- A session carrying one retry marker with attempt count 2. -/
def sRetry : Session := ⟨["redcap_2_20240110"], ⟨⟨2024, 1, 1⟩, 0⟩, []⟩

/-- A session with one untagged acquisition holding one dicom file. -/
def sAcqCex : Session := ⟨[], ⟨⟨2024, 1, 1⟩, 0⟩, [⟨[], [⟨"dicom", [], false, none⟩]⟩]⟩

/-- A matched session with a retry marker, an extra tag and one file. -/
def sAcqW : Session :=
  ⟨["redcap_1_20240101", "keep"], ⟨⟨2024, 1, 1⟩, 0⟩, [⟨["x"], [⟨"dicom", [], false, none⟩]⟩]⟩

/-- A datetime on 2024-02-01 at midnight. -/
def dtFeb : DateTime := ⟨⟨2024, 2, 1⟩, 0⟩

/-- A destination snapshot with a date-colliding row for subject `x` and an
already-suffixed duplicate `x_001`. -/
def dstW : List DstRow := [⟨"x", "s1", "2024-01-01"⟩, ⟨"x_001", "s9", "2024-01-05"⟩]

/-- A parser callback that always succeeds (stands in for
`parse_dicom_hdr.parse_pi`/`parse_sub` on a header they accept). -/
def ppiC : DcmHdr → Option String := fun _ => some "PI1"

/-- A classified DICOM header whose `StudyTime` value is not a float
literal. -/
def hdrBad : DcmHdr := [("StudyDate", "20240101"), ("StudyTime", "abc")]

/-- A classified DICOM header with well-formed values. -/
def hdrGood : DcmHdr :=
  [("StudyDate", "20240101"), ("StudyTime", "0930"),
   ("SeriesDate", "20240101"), ("SeriesTime", "093000")]

/-- An acquisition whose classified first dicom carries `hdrBad`. -/
def acqBad : Acq := ⟨[], [⟨"dicom", ["file-classifier"], true, some hdrBad⟩]⟩

/-- An acquisition whose classified first dicom carries `hdrGood`. -/
def acqGood : Acq := ⟨[], [⟨"dicom", ["file-classifier"], true, some hdrGood⟩]⟩

/-! ## Helper lemmas -/

theorem mem_delete_tag (l : List String) (d x : String) :
    x ∈ delete_tag l d ↔ x ∈ l ∧ x ≠ d := by
  simp [delete_tag]

theorem mem_foldl_delete (dels : List String) (l : List String) (x : String) :
    x ∈ dels.foldl delete_tag l ↔ x ∈ l ∧ x ∉ dels := by
  induction dels generalizing l with
  | nil => simp
  | cons d ds ih =>
    simp only [List.foldl_cons, ih, mem_delete_tag, List.mem_cons]
    tauto

theorem mem_add_tag (l : List String) (t x : String) :
    x ∈ add_tag l t ↔ x ∈ l ∨ x = t := by
  unfold add_tag
  by_cases h : t ∈ l
  · simp only [if_pos h]
    constructor
    · exact fun hx => Or.inl hx
    · rintro (hx | rfl) <;> [exact hx; exact h]
  · simp [if_neg h]

theorem hasPfx_mkRedcapTag (n : Nat) (d : Date) :
    hasPfx "redcap" (mkRedcapTag n d) = true := by
  unfold hasPfx mkRedcapTag
  have h1 : ∀ a b : String, (a ++ b).toList = a.toList ++ b.toList := by
    intro a b
    cases a; cases b; rfl
  rw [h1, List.take_append_of_le_length (by decide)]
  decide

theorem hasPfx_iff_mem_redcapTags (s : Session) (t : String) :
    t ∈ redcapTags s ↔ t ∈ s.tags ∧ hasPfx "redcap" t = true := by
  simp [redcapTags]

/-! ## C1 and C3: identifier generation -/

theorem gen_loop_spec (pfx : String) :
    ∀ (rand id_list : List String) (i : String) (l r : List String),
      gen_loop pfx id_list rand = some (i, l, r) → i ∉ id_list ∧ l = id_list ++ [i] := by
  intro rand
  induction rand with
  | nil => intro id_list i l r h; simp [gen_loop] at h
  | cons s rest ih =>
    intro id_list i l r h
    unfold gen_loop at h
    by_cases hmem : pfx ++ s ∈ id_list
    · rw [if_pos hmem] at h
      exact ih id_list i l r h
    · rw [if_neg hmem] at h
      obtain ⟨hi, hl, _⟩ := Prod.mk.injEq .. ▸ (Option.some.injEq .. ▸ h :)
      exact ⟨hi ▸ hmem, by simp_all⟩

theorem generate_fresh_spec (ms : List Record) (site : String) (id_list rand : List String)
    (i : String) (l r : List String)
    (hfind : ms.find? nonblank_rid = none)
    (h : generate_wbhi_id ms site id_list rand = some (i, l, r)) :
    i ∉ id_list ∧ l = id_list ++ [i] := by
  unfold generate_wbhi_id at h
  rw [hfind] at h
  exact gen_loop_spec _ rand id_list i l r h

theorem generate_reuse_eq (ms : List Record) (site : String) (id_list rand : List String)
    (m : Record) (hfind : ms.find? nonblank_rid = some m) :
    generate_wbhi_id ms site id_list rand = some (m.rid, id_list, rand) := by
  unfold generate_wbhi_id
  rw [hfind]

theorem run_generate_inv (site : String) :
    ∀ (calls : List (List Record)) (id_list rand : List String)
      (res : List (String × Bool)) (idsF : List String),
      run_generate site calls id_list rand = some (res, idsF) →
      (freshIds res).Nodup ∧ ∀ x ∈ freshIds res, x ∉ id_list := by
  intro calls
  induction calls with
  | nil =>
    intro id_list rand res idsF h
    unfold run_generate at h
    obtain ⟨hres, _⟩ := Prod.mk.injEq .. ▸ (Option.some.injEq .. ▸ h :)
    subst hres
    simp [freshIds]
  | cons ms rest ih =>
    intro id_list rand res idsF h
    unfold run_generate at h
    cases hg : generate_wbhi_id ms site id_list rand with
    | none => rw [hg] at h; exact absurd h (by simp)
    | some out =>
      obtain ⟨i, l, r⟩ := out
      rw [hg] at h
      dsimp only at h
      cases hr : run_generate site rest l r with
      | none => rw [hr] at h; exact absurd h (by simp)
      | some out2 =>
        obtain ⟨res', idsF'⟩ := out2
        rw [hr] at h
        obtain ⟨hres, _⟩ := Prod.mk.injEq .. ▸ (Option.some.injEq .. ▸ h :)
        subst hres
        obtain ⟨ihN, ihM⟩ := ih l r res' idsF' hr
        cases hfind : ms.find? nonblank_rid with
        | some m =>
          have hmk : m.rid = i ∧ id_list = l ∧ rand = r := by
            have := (generate_reuse_eq ms site id_list rand m hfind).symm.trans hg
            simpa using this
          obtain ⟨_, hl, _⟩ := hmk
          subst hl
          have hfresh : freshIds ((i, (some m).isNone) :: res') = freshIds res' := by
            simp [freshIds]
          rw [hfresh]
          exact ⟨ihN, ihM⟩
        | none =>
          obtain ⟨hnotmem, hl⟩ :=
            generate_fresh_spec ms site id_list rand i l r hfind hg
          have hfresh : freshIds ((i, (none : Option Record).isNone) :: res')
              = i :: freshIds res' := by
            simp [freshIds]
          rw [hfresh]
          constructor
          · refine List.nodup_cons.mpr ⟨?_, ihN⟩
            intro hmem
            exact absurd (by simp [hl] : i ∈ l) (ihM i hmem)
          · intro x hx
            rcases List.mem_cons.mp hx with rfl | hx'
            · exact hnotmem
            · intro hxin
              exact ihM x hx' (by simp [hl, hxin])

/-- C1: over a whole run whose working identifier set is seeded with every
pre-existing registry `rid`, the freshly generated identifiers are pairwise
distinct and none of them equals an identifier already present in the
seeded working set; and every fresh-path call returns its identifier only
when membership in the working set fails, inserting it into the set before
returning. -/
theorem generate_wbhi_id_run_unique (site : String) (redcap_data : List Record)
    (calls : List (List Record)) (rand : List String)
    (res : List (String × Bool)) (idsF : List String)
    (h : run_generate site calls (redcap_data.map Record.rid) rand = some (res, idsF)) :
    (freshIds res).Nodup
    ∧ (∀ x ∈ freshIds res, x ∉ redcap_data.map Record.rid)
    ∧ (∀ (ms : List Record) (ids rnd : List String) (i : String) (l r : List String),
        ms.find? nonblank_rid = none →
        generate_wbhi_id ms site ids rnd = some (i, l, r) →
        i ∉ ids ∧ i ∈ l ∧ l = ids ++ [i]) := by
  obtain ⟨hN, hM⟩ := run_generate_inv site calls (redcap_data.map Record.rid) rand res idsF h
  refine ⟨hN, hM, ?_⟩
  intro ms ids rnd i l r hfind hgen
  obtain ⟨hni, hl⟩ := generate_fresh_spec ms site ids rnd i l r hfind hgen
  exact ⟨hni, by simp [hl], hl⟩

/-- Witness for C1 at a concrete two-call run: the seed is the blank `rid`
of the one registry record, both calls generate fresh identifiers. -/
theorem generate_wbhi_id_run_unique_witness :
    run_generate "ucsb" [[recW], []] ([recW].map Record.rid) ["AAAAA", "BBBBB"]
        = some ([("AAAAAA", true), ("ABBBBB", true)], ["", "AAAAAA", "ABBBBB"])
    ∧ ((freshIds [("AAAAAA", true), ("ABBBBB", true)]).Nodup
        ∧ (∀ x ∈ freshIds [("AAAAAA", true), ("ABBBBB", true)], x ∉ [recW].map Record.rid)
        ∧ (∀ (ms : List Record) (ids rnd : List String) (i : String) (l r : List String),
            ms.find? nonblank_rid = none →
            generate_wbhi_id ms "ucsb" ids rnd = some (i, l, r) →
            i ∉ ids ∧ i ∈ l ∧ l = ids ++ [i])) :=
  ⟨by decide,
   generate_wbhi_id_run_unique "ucsb" [recW] [[recW], []] ["AAAAA", "BBBBB"]
     [("AAAAAA", true), ("ABBBBB", true)] ["", "AAAAAA", "ABBBBB"] (by decide)⟩

/-- C3: whenever some match carries a non-blank prior identifier, the
identifier-assignment operation returns that identifier unchanged and
leaves both the working identifier set and the random stream exactly as
they were. -/
theorem generate_wbhi_id_reuse_frame (ms : List Record) (site : String)
    (id_list rand : List String)
    (h : ∃ m ∈ ms, nonblank_rid m = true) :
    ∃ m ∈ ms, nonblank_rid m = true
      ∧ generate_wbhi_id ms site id_list rand = some (m.rid, id_list, rand) := by
  have hsome : (ms.find? nonblank_rid).isSome := by
    rw [List.find?_isSome]
    exact h
  obtain ⟨m, hm⟩ := Option.isSome_iff_exists.mp hsome
  exact ⟨m, List.mem_of_find?_eq_some hm, List.find?_some hm,
    generate_reuse_eq ms site id_list rand m hm⟩

/-- Witness for C3: a singleton match list carrying the identifier
`A123X`. -/
theorem generate_wbhi_id_reuse_frame_witness :
    (∃ m ∈ [recRid], nonblank_rid m = true)
    ∧ (∃ m ∈ [recRid], nonblank_rid m = true
        ∧ generate_wbhi_id [recRid] "ucsb" ["FAAAA"] ["AAAAA"]
            = some (m.rid, ["FAAAA"], ["AAAAA"])) :=
  ⟨by decide, generate_wbhi_id_reuse_frame [recRid] "ucsb" ["FAAAA"] ["AAAAA"] (by decide)⟩

/-! ## C2: the matching operation -/

theorem find_matches_foldl (hdr : HdrOk) :
    ∀ (l acc : List Record),
      l.foldl
        (fun acc r =>
          if c_outer hdr r then
            if c_pi hdr r then acc ++ [r] else acc
          else acc)
        acc
      = acc ++ l.filter (is_candidate hdr) := by
  intro l
  induction l with
  | nil => intro acc; simp
  | cons r rest ih =>
    intro acc
    simp only [List.foldl_cons, List.filter_cons]
    by_cases h1 : c_outer hdr r = true
    · by_cases h2 : c_pi hdr r = true
      · rw [if_pos h1, if_pos h2, ih, if_pos (by simp [is_candidate, h1, h2])]
        simp
      · rw [if_pos h1, if_neg h2, ih,
          if_neg (by simp [is_candidate, h1, h2] : ¬is_candidate hdr r = true)]
    · rw [if_neg h1, ih,
        if_neg (by simp [is_candidate, h1] : ¬is_candidate hdr r = true)]

/-- C2: on a well-formed registry snapshot (every record carries a
parseable MRI date and a known AM/PM code, so the Python scan raises
nothing), the matching operation returns exactly the records satisfying
the full candidate conjunction, scanning and accumulating most-recently-
exported-first, and in particular returns the empty list — a list, not a
failure value — when no record qualifies. -/
theorem find_matches_spec (hdr : HdrOk) (redcap_data : List Record)
    (_hwf : ∀ r ∈ redcap_data, recordWF r) :
    find_matches hdr redcap_data = redcap_data.reverse.filter (is_candidate hdr) := by
  unfold find_matches
  rw [find_matches_foldl hdr]
  simp

/-- Witness for C2 on a one-record snapshot whose record qualifies. -/
theorem find_matches_spec_witness :
    (∀ r ∈ [recW], recordWF r)
    ∧ find_matches hdrW [recW] = [recW].reverse.filter (is_candidate hdrW)
    ∧ is_candidate hdrW recW = true :=
  ⟨by decide, find_matches_spec hdrW [recW] (by decide), by decide⟩

/-! ## C5: session selection -/

/-- C5 counterexample: an old session carrying only the completion marker
`wbhi` IS returned by `utils.get_sessions_redcap` — the claimed conjunct
"does not carry the completion marker" does not hold of this operation. -/
theorem get_sessions_redcap_claim_cex :
    sWbhi ∈ get_sessions_redcap 0 dtFeb dtFeb [sWbhi] ∧ "wbhi" ∈ sWbhi.tags := by
  decide

/-- C5 amended: on sessions whose retry tags are well-formed, the selection
operation returns a session iff it carries neither skip flag, it is at
least the configured number of days old, and it has no retry marker or the
lexicographically-last retry marker's date is on or before today; the
completion marker is not consulted. -/
theorem get_sessions_redcap_spec (cfgDays : Nat) (today now : DateTime)
    (sessions : List Session) (s : Session)
    (_hwf : ∀ t ∈ sessions, sessionWF t = true) :
    s ∈ get_sessions_redcap cfgDays today now sessions ↔
      s ∈ sessions
      ∧ "skip_redcap" ∉ s.tags
      ∧ "need_to_split" ∉ s.tags
      ∧ dtSecs s.timestamp + cfgDays * 86400 ≤ dtSecs now
      ∧ (redcapTags s = []
         ∨ ∃ d, parseDateFW ((pySplit '_' (sorted_last (redcapTags s))).getLastD "") = some d
              ∧ toOrdinal d * 86400 ≤ dtSecs today) := by
  unfold get_sessions_redcap
  rw [List.mem_filter]
  constructor
  · rintro ⟨hmem, hkept⟩
    refine ⟨hmem, ?_⟩
    unfold sessionKept at hkept
    by_cases h1 : ("skip_redcap" ∈ s.tags ∨ "need_to_split" ∈ s.tags)
    · rw [if_pos h1] at hkept
      exact absurd hkept (by simp)
    · rw [if_neg h1] at hkept
      push_neg at h1
      by_cases h2 : dtSecs now < dtSecs s.timestamp + cfgDays * 86400
      · rw [if_pos h2] at hkept
        exact absurd hkept (by simp)
      · rw [if_neg h2] at hkept
        refine ⟨h1.1, h1.2, Nat.le_of_not_lt h2, ?_⟩
        cases hrt : redcapTags s with
        | nil => exact Or.inl rfl
        | cons a as =>
          rw [hrt] at hkept
          dsimp only at hkept
          cases hpd : parseDateFW ((pySplit '_' (sorted_last (a :: as))).getLastD "") with
          | none => rw [hpd] at hkept; simp at hkept
          | some d => rw [hpd] at hkept; exact Or.inr ⟨d, rfl, of_decide_eq_true hkept⟩
  · rintro ⟨hmem, hns1, hns2, hage, helig⟩
    refine ⟨hmem, ?_⟩
    unfold sessionKept
    rw [if_neg (not_or.mpr ⟨hns1, hns2⟩), if_neg (Nat.not_lt.mpr hage)]
    cases hrt : redcapTags s with
    | nil => rfl
    | cons a as =>
      rcases helig with hnil | ⟨d, hpd, hle⟩
      · rw [hrt] at hnil
        exact absurd hnil (by simp)
      · rw [hrt] at hpd
        dsimp only
        rw [hpd]
        exact decide_eq_true hle

/-- Witness for C5 at a session carrying one well-formed retry marker whose
date has passed. -/
theorem get_sessions_redcap_spec_witness :
    (∀ t ∈ [sRetry], sessionWF t = true)
    ∧ (sRetry ∈ get_sessions_redcap 0 dtFeb dtFeb [sRetry] ↔
        sRetry ∈ [sRetry]
        ∧ "skip_redcap" ∉ sRetry.tags
        ∧ "need_to_split" ∉ sRetry.tags
        ∧ dtSecs sRetry.timestamp + 0 * 86400 ≤ dtSecs dtFeb
        ∧ (redcapTags sRetry = []
           ∨ ∃ d, parseDateFW
                ((pySplit '_' (sorted_last (redcapTags sRetry))).getLastD "") = some d
              ∧ toOrdinal d * 86400 ≤ dtSecs dtFeb)) :=
  ⟨by decide, get_sessions_redcap_spec 0 dtFeb dtFeb [sRetry] sRetry (by decide)⟩

/-! ## C4: retry-marker update -/

/-- C4 counterexample: on a session with no prior marker the code stamps
the next-eligible date one day out (`2^min(5, 0)` with the OLD attempt
count 0), while the claimed formula `2^min(n, 5)` with the NEW attempt
count `n = 1` yields two days out — so the claim is false at this input. -/
theorem tag_session_redcap_claim_cex :
    tag_session_redcap ⟨2024, 1, 1⟩ sPlain
        = some { sPlain with tags := ["redcap_1_20240102"] }
    ∧ mkRedcapTag (0 + 1) (addDays ⟨2024, 1, 1⟩ (2 ^ min (0 + 1) 5)) = "redcap_1_20240103"
    ∧ ("redcap_1_20240102" : String) ≠ "redcap_1_20240103" := by
  refine ⟨by decide, by decide, by decide⟩

/-- C4 amended: on a session whose authoritative attempt count parses, the
update deletes every retry marker and adds exactly one new marker whose
attempt count is the previous authoritative count `n` plus 1 (1 when no
marker existed) and whose next-eligible date is today plus
`2^min(5, n)` days (capped at 32 days) — the exponent uses the PREVIOUS
count, i.e. the new attempt count minus 1.  Non-retry tags, the timestamp
and the acquisitions are untouched. -/
theorem tag_session_redcap_spec (today : Date) (s : Session) (n : Nat)
    (h : oldRedcapN s = some n) :
    ∃ s', tag_session_redcap today s = some s'
      ∧ s'.tags.filter (fun t => hasPfx "redcap" t)
          = [mkRedcapTag (n + 1) (addDays today (2 ^ min 5 n))]
      ∧ (∀ t ∈ s'.tags, hasPfx "redcap" t = false → t ∈ s.tags)
      ∧ s'.timestamp = s.timestamp ∧ s'.acqs = s.acqs := by
  unfold tag_session_redcap
  rw [h]
  refine ⟨_, rfl, ?_, ?_, rfl, rfl⟩
  · have htags₁ : ∀ t ∈ (redcapTags s).foldl delete_tag s.tags,
        hasPfx "redcap" t = false := by
      intro t ht
      obtain ⟨hin, hnot⟩ := (mem_foldl_delete _ _ _).mp ht
      by_contra hpf
      exact hnot ((hasPfx_iff_mem_redcapTags s t).mpr
        ⟨hin, Bool.of_not_eq_false hpf⟩)
    have hnewNot : mkRedcapTag (n + 1) (addDays today (2 ^ min 5 n))
        ∉ (redcapTags s).foldl delete_tag s.tags := by
      intro hmem
      have hfalse := htags₁ _ hmem
      rw [hasPfx_mkRedcapTag] at hfalse
      exact Bool.noConfusion hfalse
    unfold add_tag
    rw [if_neg hnewNot, List.filter_append]
    have h1 : ((redcapTags s).foldl delete_tag s.tags).filter
        (fun t => hasPfx "redcap" t) = [] := by
      rw [List.filter_eq_nil_iff]
      intro t ht
      simp [htags₁ t ht]
    rw [h1, List.nil_append, List.filter_cons, if_pos (by simp [hasPfx_mkRedcapTag])]
    rfl
  · intro t ht _
    have ht' : t ∈ add_tag ((redcapTags s).foldl delete_tag s.tags)
        (mkRedcapTag (n + 1) (addDays today (2 ^ min 5 n))) := ht
    rcases (mem_add_tag _ _ _).mp ht' with hmem | rfl
    · exact ((mem_foldl_delete _ _ _).mp hmem).1
    · exfalso
      rename_i hpf
      rw [hasPfx_mkRedcapTag] at hpf
      exact Bool.noConfusion hpf

/-- Witness for C4 at a session with a `redcap_2_...` marker: the count is
read as 2 and the new marker gets count 3 dated four days out. -/
theorem tag_session_redcap_spec_witness :
    oldRedcapN sRetry = some 2
    ∧ (∃ s', tag_session_redcap ⟨2024, 2, 1⟩ sRetry = some s'
        ∧ s'.tags.filter (fun t => hasPfx "redcap" t)
            = [mkRedcapTag (2 + 1) (addDays ⟨2024, 2, 1⟩ (2 ^ min 5 2))]
        ∧ (∀ t ∈ s'.tags, hasPfx "redcap" t = false → t ∈ sRetry.tags)
        ∧ s'.timestamp = sRetry.timestamp ∧ s'.acqs = sRetry.acqs) :=
  ⟨by decide, tag_session_redcap_spec ⟨2024, 2, 1⟩ sRetry 2 (by decide)⟩

/-! ## C7: completion marking -/

/-- C7 counterexample: after completion marking, the session's sole
acquisition container still does not carry the `wbhi` marker (only the
session and the files are tagged), so the claimed "adds the completion
marker ... to every one of its acquisitions" is false at this input. -/
theorem tag_session_wbhi_claim_cex :
    (tag_session_wbhi sAcqCex).acqs.map (fun a => a.atags.contains "wbhi") = [false]
    ∧ (tag_session_wbhi sAcqCex).acqs ≠ [] := by
  refine ⟨by decide, by decide⟩

/-- C7 amended: completion marking adds the `wbhi` marker to the session
and to every file of every acquisition and deletes every retry marker from
the session, in the same operation; the acquisition containers' own tag
lists are left unchanged. -/
theorem tag_session_wbhi_spec (s : Session) :
    "wbhi" ∈ (tag_session_wbhi s).tags
    ∧ (∀ t ∈ (tag_session_wbhi s).tags, hasPfx "redcap" t = false)
    ∧ (∀ a ∈ (tag_session_wbhi s).acqs, ∀ f ∈ a.files, "wbhi" ∈ f.ftags)
    ∧ (tag_session_wbhi s).acqs.map Acq.atags = s.acqs.map Acq.atags := by
  refine ⟨?_, ?_, ?_, ?_⟩
  · show "wbhi" ∈ (redcapTags s).foldl delete_tag (add_tag s.tags "wbhi")
    rw [mem_foldl_delete]
    refine ⟨(mem_add_tag _ _ _).mpr (Or.inr rfl), ?_⟩
    intro hmem
    have := ((hasPfx_iff_mem_redcapTags s "wbhi").mp hmem).2
    exact absurd this (by decide)
  · intro t ht
    have ht' : t ∈ (redcapTags s).foldl delete_tag (add_tag s.tags "wbhi") := ht
    obtain ⟨hin, hnot⟩ := (mem_foldl_delete _ _ _).mp ht'
    rcases (mem_add_tag _ _ _).mp hin with hmem | rfl
    · by_contra hpf
      exact hnot ((hasPfx_iff_mem_redcapTags s t).mpr ⟨hmem, Bool.of_not_eq_false hpf⟩)
    · decide
  · intro a ha f hf
    simp only [tag_session_wbhi, List.mem_map] at ha
    obtain ⟨a₀, _, rfl⟩ := ha
    simp only [List.mem_map] at hf
    obtain ⟨f₀, _, rfl⟩ := hf
    exact (mem_add_tag _ _ _).mpr (Or.inr rfl)
  · simp [tag_session_wbhi]

/-- Witness for C7 at a session with a retry marker, an unrelated tag and
one file. -/
theorem tag_session_wbhi_spec_witness :
    "wbhi" ∈ (tag_session_wbhi sAcqW).tags
    ∧ (∀ t ∈ (tag_session_wbhi sAcqW).tags, hasPfx "redcap" t = false)
    ∧ (∀ a ∈ (tag_session_wbhi sAcqW).acqs, ∀ f ∈ a.files, "wbhi" ∈ f.ftags)
    ∧ (tag_session_wbhi sAcqW).acqs.map Acq.atags = sAcqW.acqs.map Acq.atags :=
  tag_session_wbhi_spec sAcqW

/-! ## C6: registry import and premature commit -/

/-- C6: evaluating run.py's import-and-commit step at a failing input.  On
a one-record batch whose import response count is 0 the code reports
failure — and still stamps the completion marker on the matched session;
and on a two-record batch with count 1 (a count mismatch) it reports
success.  The claim that a mismatch leaves session tags unchanged is
contradicted by the code. -/
theorem redcap_import_commit_bug :
    redcap_import_commit [recW] 0 [sPlain]
        = (some false, [{ sPlain with tags := ["wbhi"] }])
    ∧ redcap_import_commit [recW, recW] 1 [sPlain]
        = (some true, [{ sPlain with tags := ["wbhi"] }])
    ∧ "wbhi" ∈ ({ sPlain with tags := ["wbhi"] } : Session).tags :=
  ⟨rfl, rfl, by decide⟩

/-! ## C8: duplicate-subject rename -/

theorem init_le_foldl_max (l : List Nat) (a : Nat) : a ≤ l.foldl max a := by
  induction l generalizing a with
  | nil => simp
  | cons b bs ih => exact le_trans (le_max_left a b) (ih (max a b))

theorem le_foldl_max (l : List Nat) (a : Nat) : ∀ x ∈ l, x ≤ l.foldl max a := by
  induction l generalizing a with
  | nil => intro x hx; simp at hx
  | cons b bs ih =>
    intro x hx
    rcases List.mem_cons.mp hx with rfl | hx'
    · calc x ≤ max a x := le_max_right a x
        _ ≤ bs.foldl max (max a x) := init_le_foldl_max bs (max a x)
    · exact ih (max a b) x hx'

theorem foldl_max_mem (l : List Nat) (a : Nat) :
    l.foldl max a = a ∨ l.foldl max a ∈ l := by
  induction l generalizing a with
  | nil => simp
  | cons b bs ih =>
    rcases ih (max a b) with h | h
    · rcases Nat.le_total a b with hab | hab
      · right
        rw [List.foldl_cons, h, max_eq_right hab]
        exact List.mem_cons_self b bs
      · left
        rw [List.foldl_cons, h, max_eq_left hab]
    · right
      exact List.mem_cons_of_mem b h

/-- C8: a subject whose label collides in the destination (same-label
session there with a different date) is renamed to `<label>_<NNN>` where
`NNN` is one greater than the highest existing three-digit numeric suffix
used for that label in the destination snapshot, zero-padded to three
digits — `_001` when no suffixed duplicate exists yet; a subject with no
such collision keeps its label. -/
theorem rename_duplicate_spec (dst : List DstRow) (subL sesL sesD : String) :
    (collides dst subL sesL sesD = true →
      (((dst.map (fun r => r.subLabel)).filter (isDupOf subL) = [] →
          smarter_copy_label dst subL sesL sesD = subL ++ "_001")
       ∧ ((dst.map (fun r => r.subLabel)).filter (isDupOf subL) ≠ [] →
          ∃ N, smarter_copy_label dst subL sesL sesD = subL ++ "_" ++ zfill 3 (toString N)
            ∧ 1 ≤ N
            ∧ (∀ t ∈ dst.map (fun r => r.subLabel),
                isDupOf subL t = true → sufVal subL t < N)
            ∧ (∃ t ∈ dst.map (fun r => r.subLabel),
                isDupOf subL t = true ∧ sufVal subL t = N - 1))))
    ∧ (collides dst subL sesL sesD = false →
        smarter_copy_label dst subL sesL sesD = subL) := by
  constructor
  · intro hcol
    constructor
    · intro hdups
      unfold smarter_copy_label
      rw [if_pos hcol]
      unfold rename_duplicate_subject
      rw [hdups]
      rfl
    · intro hdups
      unfold smarter_copy_label
      rw [if_pos hcol]
      unfold rename_duplicate_subject
      rw [if_neg (by simpa using hdups)]
      set dups := (dst.map (fun r => r.subLabel)).filter (isDupOf subL) with hd
      refine ⟨(dups.map (sufVal subL)).foldl max 0 + 1, rfl, Nat.le_add_left 1 _, ?_, ?_⟩
      · intro t ht hdup
        have htd : t ∈ dups := by
          rw [hd, List.mem_filter]
          exact ⟨ht, hdup⟩
        have : sufVal subL t ≤ (dups.map (sufVal subL)).foldl max 0 :=
          le_foldl_max _ 0 _ (List.mem_map_of_mem (sufVal subL) htd)
        omega
      · rcases foldl_max_mem (dups.map (sufVal subL)) 0 with hzero | hmem
        · obtain ⟨t, htd⟩ := List.exists_mem_of_ne_nil dups hdups
          refine ⟨t, (List.mem_filter.mp htd).1, (List.mem_filter.mp htd).2, ?_⟩
          have h1 : sufVal subL t ≤ (dups.map (sufVal subL)).foldl max 0 :=
            le_foldl_max _ 0 _ (List.mem_map_of_mem (sufVal subL) htd)
          omega
        · obtain ⟨t, htd, hts⟩ := List.mem_map.mp hmem
          refine ⟨t, (List.mem_filter.mp htd).1, (List.mem_filter.mp htd).2, ?_⟩
          omega
  · intro hcol
    unfold smarter_copy_label
    rw [if_neg (by simp [hcol])]

/-- Witness for C8 at a colliding snapshot holding both a plain `x` row and
a suffixed duplicate `x_001`: the next label is `x_002`. -/
theorem rename_duplicate_spec_witness :
    collides dstW "x" "s1" "2024-01-02" = true
    ∧ (∃ N, smarter_copy_label dstW "x" "s1" "2024-01-02" = "x" ++ "_" ++ zfill 3 (toString N)
        ∧ 1 ≤ N
        ∧ (∀ t ∈ dstW.map (fun r => r.subLabel), isDupOf "x" t = true → sufVal "x" t < N)
        ∧ (∃ t ∈ dstW.map (fun r => r.subLabel),
            isDupOf "x" t = true ∧ sufVal "x" t = N - 1))
    ∧ smarter_copy_label dstW "x" "s1" "2024-01-02" = "x_002" :=
  ⟨by decide,
   ((rename_duplicate_spec dstW "x" "s1" "2024-01-02").1 (by decide)).2 (by decide),
   by decide⟩

/-! ## C9: header extraction -/

theorem acqWF_hdr (acq : Acq) (f : FwFile) (hdr : DcmHdr)
    (hwf : acqWF acq = true) (hfd : firstDicom acq = some f)
    (hinfo : f.hasHdrInfo = true) (hdcm : f.dcm = some hdr) :
    hdrValuesWF hdr = true := by
  unfold acqWF at hwf
  rw [hfd] at hwf
  simp only [hinfo, hdcm, if_true] at hwf
  simpa using hwf

theorem hdr_try_no_raise (ppi psub : DcmHdr → Option String) (hdr : DcmHdr) (site : String)
    (h : hdrValuesWF hdr = true) :
    ∀ e, hdr_try ppi psub hdr site ≠ Except.error e := by
  obtain ⟨⟨h1, h2⟩, h3⟩ : ((_ ∧ _) ∧ _) := by
    unfold hdrValuesWF at h
    simpa [Bool.and_eq_true] using h
  intro e
  unfold hdr_try
  cases hpi : ppi hdr with
  | none => simp
  | some piRaw =>
    dsimp only
    cases hps : psub hdr with
    | none => simp
    | some subRaw =>
      dsimp only
      cases hsd : List.lookup "StudyDate" hdr with
      | none => simp
      | some sd =>
        dsimp only
        rw [hsd] at h1
        obtain ⟨d, hd⟩ := Option.isSome_iff_exists.mp (by simpa using h1)
        rw [hd]
        dsimp only
        cases hst : List.lookup "StudyTime" hdr with
        | none => simp
        | some st =>
          dsimp only
          rw [hst] at h2
          obtain ⟨tv, htv⟩ := Option.isSome_iff_exists.mp (by simpa using h2)
          rw [htv]
          dsimp only
          cases hsed : List.lookup "SeriesDate" hdr with
          | none => simp
          | some sed =>
            cases hset : List.lookup "SeriesTime" hdr with
            | none => simp
            | some setv =>
              dsimp only
              rw [hsed, hset] at h3
              obtain ⟨sdt, hsdt⟩ := Option.isSome_iff_exists.mp (by simpa using h3)
              rw [hsdt]
              simp

theorem hdr_try_missing (ppi psub : DcmHdr → Option String) (hdr : DcmHdr) (site : String)
    (h : hdrValuesWF hdr = true)
    (hmiss : ppi hdr = none ∨ psub hdr = none ∨ List.lookup "StudyDate" hdr = none
      ∨ List.lookup "StudyTime" hdr = none ∨ List.lookup "SeriesDate" hdr = none
      ∨ List.lookup "SeriesTime" hdr = none) :
    hdr_try ppi psub hdr site = Except.ok (HdrRes.errRes HdrErr.MISSING_DICOM_FIELDS) := by
  obtain ⟨⟨h1, h2⟩, h3⟩ : ((_ ∧ _) ∧ _) := by
    unfold hdrValuesWF at h
    simpa [Bool.and_eq_true] using h
  unfold hdr_try
  cases hpi : ppi hdr with
  | none => rfl
  | some piRaw =>
    dsimp only
    cases hps : psub hdr with
    | none => rfl
    | some subRaw =>
      dsimp only
      cases hsd : List.lookup "StudyDate" hdr with
      | none => rfl
      | some sd =>
        dsimp only
        rw [hsd] at h1
        obtain ⟨d, hd⟩ := Option.isSome_iff_exists.mp (by simpa using h1)
        rw [hd]
        dsimp only
        cases hst : List.lookup "StudyTime" hdr with
        | none => rfl
        | some st =>
          dsimp only
          rw [hst] at h2
          obtain ⟨tv, htv⟩ := Option.isSome_iff_exists.mp (by simpa using h2)
          rw [htv]
          dsimp only
          cases hsed : List.lookup "SeriesDate" hdr with
          | none => rfl
          | some sed =>
            cases hset : List.lookup "SeriesTime" hdr with
            | none => rfl
            | some setv =>
              exfalso
              rcases hmiss with hx | hx | hx | hx | hx | hx <;>
                simp_all

/-- C9 amended: on an acquisition whose classified header carries the
`dicom` sub-key and whose present date/time values are well-formed,
extraction never raises; the three enumerated failure modes (no DICOM
file, classifier not run, a required header key missing) are returned as
the corresponding typed error values. -/
theorem get_hdr_fields_spec (ppi psub : DcmHdr → Option String) (acq : Acq) (site : String)
    (hwf : acqWF acq = true) :
    (∀ e, get_hdr_fields ppi psub acq site ≠ Except.error e)
    ∧ (firstDicom acq = none →
        get_hdr_fields ppi psub acq site = Except.ok (HdrRes.errRes HdrErr.NO_DICOMS))
    ∧ (∀ f, firstDicom acq = some f →
        ("file-classifier" ∉ f.ftags ∨ f.hasHdrInfo = false) →
        get_hdr_fields ppi psub acq site
          = Except.ok (HdrRes.errRes HdrErr.FILE_CLASSIFIER_NOT_RUN))
    ∧ (∀ f hdr, firstDicom acq = some f → "file-classifier" ∈ f.ftags →
        f.hasHdrInfo = true → f.dcm = some hdr →
        (ppi hdr = none ∨ psub hdr = none ∨ List.lookup "StudyDate" hdr = none
          ∨ List.lookup "StudyTime" hdr = none ∨ List.lookup "SeriesDate" hdr = none
          ∨ List.lookup "SeriesTime" hdr = none) →
        get_hdr_fields ppi psub acq site
          = Except.ok (HdrRes.errRes HdrErr.MISSING_DICOM_FIELDS)) := by
  refine ⟨?_, ?_, ?_, ?_⟩
  · intro e
    unfold get_hdr_fields
    cases hfd : firstDicom acq with
    | none => simp
    | some f =>
      dsimp only
      by_cases hcl : ("file-classifier" ∉ f.ftags ∨ f.hasHdrInfo = false)
      · rw [if_pos hcl]
        simp
      · rw [if_neg hcl]
        push_neg at hcl
        have hinfo : f.hasHdrInfo = true := by
          rcases Bool.eq_false_or_eq_true f.hasHdrInfo with hx | hx
          · exact hx
          · exact absurd hx hcl.2
        cases hdcm : f.dcm with
        | none =>
          exfalso
          unfold acqWF at hwf
          rw [hfd] at hwf
          simp only [hinfo, hdcm, if_true] at hwf
          simp at hwf
        | some hdr =>
          dsimp only
          exact hdr_try_no_raise ppi psub hdr site
            (acqWF_hdr acq f hdr hwf hfd hinfo hdcm) e
  · intro h
    unfold get_hdr_fields
    rw [h]
  · intro f hf hcl
    unfold get_hdr_fields
    rw [hf]
    dsimp only
    rw [if_pos hcl]
  · intro f hdr hf hcl1 hinfo hdcm hmiss
    unfold get_hdr_fields
    rw [hf]
    dsimp only
    rw [if_neg (not_or.mpr ⟨not_not_intro hcl1, by simp [hinfo]⟩)]
    rw [hdcm]
    exact hdr_try_missing ppi psub hdr site
      (acqWF_hdr acq f hdr hwf hf hinfo hdcm) hmiss

/-- C9 counterexample: an acquisition whose classified header holds every
key the parsers need but a `StudyTime` value `"abc"` that is not a float
literal makes the extraction raise (`float` raises `ValueError`, which the
`except KeyError` handler does not catch) instead of returning a typed
error — the claim that extraction never raises is false at this input. -/
theorem get_hdr_fields_claim_cex :
    get_hdr_fields ppiC ppiC acqBad "ucsb"
      = Except.error "ValueError: float StudyTime" := rfl

/-- Witness for C9 on a fully well-formed acquisition. -/
theorem get_hdr_fields_spec_witness :
    acqWF acqGood = true
    ∧ ((∀ e, get_hdr_fields ppiC ppiC acqGood "ucsb" ≠ Except.error e)
       ∧ (firstDicom acqGood = none →
           get_hdr_fields ppiC ppiC acqGood "ucsb"
             = Except.ok (HdrRes.errRes HdrErr.NO_DICOMS))
       ∧ (∀ f, firstDicom acqGood = some f →
           ("file-classifier" ∉ f.ftags ∨ f.hasHdrInfo = false) →
           get_hdr_fields ppiC ppiC acqGood "ucsb"
             = Except.ok (HdrRes.errRes HdrErr.FILE_CLASSIFIER_NOT_RUN))
       ∧ (∀ f hdr, firstDicom acqGood = some f → "file-classifier" ∈ f.ftags →
           f.hasHdrInfo = true → f.dcm = some hdr →
           (ppiC hdr = none ∨ ppiC hdr = none ∨ List.lookup "StudyDate" hdr = none
             ∨ List.lookup "StudyTime" hdr = none ∨ List.lookup "SeriesDate" hdr = none
             ∨ List.lookup "SeriesTime" hdr = none) →
           get_hdr_fields ppiC ppiC acqGood "ucsb"
             = Except.ok (HdrRes.errRes HdrErr.MISSING_DICOM_FIELDS))) :=
  ⟨by decide, get_hdr_fields_spec ppiC ppiC acqGood "ucsb" (by decide)⟩

/-! ## C10: the unreachable AcquisitionDate branch of run.get_dicom_fields -/

/-- C10: the study date placed in the header fields is always parsed from
the DICOM `StudyDate` value: the guard tests `"AcquisitionDate"` against
the keys of the partially built output dictionary (which holds only
`"site"`), so the `AcquisitionDate` branch is unreachable and an
`AcquisitionDate` header value never influences the extracted date. -/
theorem get_dicom_fields_date_spec (dcm : DcmHdr) (site v : String) :
    get_dicom_fields_date dcm site
      = (List.lookup "StudyDate" dcm).bind (fun s => parseDateFW (s.take 8))
    ∧ get_dicom_fields_date (("AcquisitionDate", v) :: dcm) site
      = (List.lookup "StudyDate" dcm).bind (fun s => parseDateFW (s.take 8)) := by
  constructor
  · unfold get_dicom_fields_date
    rw [if_neg (by simp)]
  · unfold get_dicom_fields_date
    rw [if_neg (by simp)]
    have : List.lookup "StudyDate" (("AcquisitionDate", v) :: dcm)
        = List.lookup "StudyDate" dcm := by
      simp [List.lookup]
    rw [this]

end Wbhi
